import Mathlib

/-!
Verification development for the jorik-cli terminal client
(src/tui.rs, src/main.rs, src/api.rs).

The session state, the queue parser, the render-tick position
extrapolator and visualization smoother, the stream-event dispatcher,
the reconnect loop of the stream client, and the login callback
handlers are shallowly embedded below.  Machine integers are modelled
as Nat with explicit reduction modulo 2 to the 64 where overflow can
occur; the 32-bit floating point smoothing arithmetic is modelled over
the rationals with the exact constants appearing in the source; wall
clock time is passed in explicitly as the millisecond delta between
ticks (the Instant anchor field of the Rust struct is represented by
that parameter).
-/

namespace Jorik

/-- Minimal JSON value type mirroring the serde-json values the client
consumes.  Objects keep their fields as an association list; lookup
returns the first binding, matching map access on decoded objects. -/
inductive Json where
  | null : Json
  | str : String → Json
  | num : Int → Json
  | boolean : Bool → Json
  | arr : List Json → Json
  | obj : List (String × Json) → Json

/-- Field access on a JSON value: Value::get on an object, None otherwise. -/
def Json.lookupField : Json → String → Option Json
  | .obj fields, k => fields.lookup k
  | _, _ => none

/-- Value::as_str. -/
def Json.asStr : Json → Option String
  | .str s => some s
  | _ => none

/-- Value::as_array. -/
def Json.asArray : Json → Option (List Json)
  | .arr xs => some xs
  | _ => none

/-- Value::as_object, keeping the field list. -/
def Json.asObject : Json → Option (List (String × Json))
  | .obj fields => some fields
  | _ => none

/-- Decoded playback snapshot (api.rs, struct PlaybackState). -/
structure PlaybackState where
  elapsed_ms : Nat
  duration_ms : Nat
  paused : Bool
  spectrogram : Option (List (List Nat))
deriving DecidableEq

/-- Decoded stream event (api.rs, struct WsEvent). -/
structure WsEvent where
  event_type : String
  guild_id : Option String
  data : Option Json
  playback : Option PlaybackState

/-- The fields of the App struct of tui.rs that the realtime engine,
the queue parser and the stream dispatcher read or write.  Vec of f32
becomes List of rationals; u64 fields become Nat; the i64 visualizer
offset becomes Int; the Instant anchor is replaced by passing the
wall-clock delta to the tick function. -/
structure App where
  guild_id : Option String
  current_track : Option String
  queue : List String
  elapsed_ms : Nat
  duration_ms : Nat
  paused : Bool
  spectrogram : Option (List (List Nat))
  visualizer_offset : Int
  debug_logs : List String
  smoothed_bars : List ℚ
deriving DecidableEq

/-- Format of one diagnostic line: a bracketed timestamp then the message. -/
def logLine (ts msg : String) : String :=
  "[" ++ ts ++ "] " ++ msg

/-- App::log of tui.rs: push the formatted line, then remove the
oldest entry when the length exceeds 100.  The chrono timestamp is an
explicit argument. -/
def App.log (app : App) (ts msg : String) : App :=
  let logs := app.debug_logs ++ [logLine ts msg]
  { app with debug_logs := if 100 < logs.length then logs.tail else logs }

/-- Title and author of a track object rendered as in tui.rs:
title, a spaced dash, then author, with the unwrap_or defaults. -/
def trackLabel (fields : List (String × Json)) : String :=
  (((fields.lookup "title").bind Json.asStr).getD "Unknown") ++ " - " ++
  (((fields.lookup "author").bind Json.asStr).getD "")

/-- Label of one upcoming queue item, via Value::get on the item. -/
def itemLabel (item : Json) : String :=
  (((item.lookupField "title").bind Json.asStr).getD "Unknown") ++ " - " ++
  (((item.lookupField "author").bind Json.asStr).getD "")

/-- Guild-id capture prefix of App::parse_queue_response: read
guild_id, else guildId, log a discovery line when the session had no
guild yet, and store the value. -/
def captureGuild (ts : String) (app : App) (j : Json) : App :=
  match (j.lookupField "guild_id").bind Json.asStr with
  | some gid =>
      let app := if app.guild_id = none then app.log ts ("Discovered Guild ID: " ++ gid) else app
      { app with guild_id := some gid }
  | none =>
      match (j.lookupField "guildId").bind Json.asStr with
      | some gid =>
          let app := if app.guild_id = none then app.log ts ("Discovered Guild ID: " ++ gid) else app
          { app with guild_id := some gid }
      | none => app

/-- App::parse_queue_response of tui.rs: capture the guild id, set
current_track from the current object (None when absent), clear the
queue and refill it from the upcoming array. -/
def parse_queue_response (ts : String) (app : App) (j : Json) : App :=
  let app := captureGuild ts app j
  let current :=
    match (j.lookupField "current").bind Json.asObject with
    | some fields => some (trackLabel fields)
    | none => none
  let newQueue :=
    match (j.lookupField "upcoming").bind Json.asArray with
    | some items => items.map itemLabel
    | none => []
  { app with current_track := current, queue := newQueue }

/-- u64::saturating_add_signed: clamp the signed sum into the u64 range. -/
def saturatingAddSigned (a : Nat) (b : Int) : Nat :=
  (min (max ((a : Int) + b) 0) (2 ^ 64 - 1)).toNat

/-- Frame selection of App::update_realtime: floor of the adjusted
milliseconds divided by the 42.66 ms analysis frame duration, written
over the exact rationals as multiplication by 100 and integer division
by 4266. -/
def frame_index_of (adjusted : Nat) : Nat :=
  adjusted * 100 / 4266

/-- Elapsed-time advance of App::update_realtime: add the wall-clock
delta (u64 addition, reduced modulo 2 to the 64), then clamp to
duration_ms when a positive duration is known. -/
def advance_elapsed (delta : Nat) (app : App) : Nat :=
  let e := (app.elapsed_ms + delta) % 2 ^ 64
  if 0 < app.duration_ms ∧ app.duration_ms < e then app.duration_ms else e

/-- Per-band processing step of App::update_realtime, lines 273 to 286
of tui.rs: subtract the per-band noise floor (60 below band 3, 30
elsewhere) clamping at zero, scale by the per-band gain (0.1 for band
0, 0.6 elsewhere) capping at 100, then move 40 percent of the gap when
rising and 15 percent when falling. -/
def smooth_step (i : Nat) (target : Nat) (current : ℚ) : ℚ :=
  let floorLevel : ℚ := if i < 3 then 60 else 30
  let raw_signal : ℚ := max ((target : ℚ) - floorLevel) 0
  let gain : ℚ := if i = 0 then 1 / 10 else 6 / 10
  let scaled_target : ℚ := min (raw_signal * gain) 100
  if scaled_target > current then current + (scaled_target - current) * (4 / 10)
  else current - (current - scaled_target) * (15 / 100)

/-- One smoothing pass over the bars: bands 0 up to the minimum of 64
and the frame width are stepped toward the frame values, the rest are
left alone. -/
def smooth_update (frame : List Nat) (bars : List ℚ) : List ℚ :=
  bars.mapIdx (fun i b =>
    if i < min 64 frame.length then smooth_step i (frame.getD i 0) b else b)

/-- App::update_realtime of tui.rs.  When a track is current and
playback is unpaused: advance and clamp elapsed_ms, then, when a
spectrogram is stored, select a frame by the offset-adjusted elapsed
time and smooth the bars toward it when the index is in bounds.
Otherwise every band decays by the factor 0.95 (the anchor reset of
the idle branch is implicit in the delta-passing model). -/
def update_realtime (delta : Nat) (app : App) : App :=
  if app.current_track.isSome = true ∧ app.paused = false then
    let e := advance_elapsed delta app
    match app.spectrogram with
    | some sg =>
        let adjusted := saturatingAddSigned e app.visualizer_offset
        let fi := frame_index_of adjusted
        if fi < sg.length then
          { app with elapsed_ms := e,
                     smoothed_bars := smooth_update (sg.getD fi []) app.smoothed_bars }
        else { app with elapsed_ms := e }
    | none => { app with elapsed_ms := e }
  else
    { app with smoothed_bars := app.smoothed_bars.map (fun b => b * (95 / 100)) }

/-- Decode one spectrogram byte: an integer in the u8 range. -/
def decodeByte : Json → Option Nat
  | .num n => if 0 ≤ n ∧ n < 256 then some n.toNat else none
  | _ => none

/-- Decode one spectrogram frame: an array of bytes. -/
def decodeFrame (j : Json) : Option (List Nat) :=
  j.asArray.bind (List.mapM decodeByte)

/-- Decode a Vec of Vec of u8 spectrogram payload. -/
def decodeSpectrogram (j : Json) : Option (List (List Nat)) :=
  j.asArray.bind (List.mapM decodeFrame)

/-- Decode a u64 field. -/
def decodeNat64 : Json → Option Nat
  | .num n => if 0 ≤ n ∧ n < 2 ^ 64 then some n.toNat else none
  | _ => none

/-- Decode a bool field. -/
def decodeBool : Json → Option Bool
  | .boolean b => some b
  | _ => none

/-- Deserialization of PlaybackState (api.rs): elapsedMs, durationMs
and paused are required, spectrogram is optional. -/
def decodePlayback (j : Json) : Option PlaybackState :=
  match (j.lookupField "elapsedMs").bind decodeNat64,
        (j.lookupField "durationMs").bind decodeNat64,
        (j.lookupField "paused").bind decodeBool with
  | some e, some d, some p =>
      match j.lookupField "spectrogram" with
      | none => some { elapsed_ms := e, duration_ms := d, paused := p, spectrogram := none }
      | some .null => some { elapsed_ms := e, duration_ms := d, paused := p, spectrogram := none }
      | some s => (decodeSpectrogram s).map
          (fun sp => { elapsed_ms := e, duration_ms := d, paused := p, spectrogram := some sp })
  | _, _, _ => none

/-- Event dispatch of spawn_websocket (tui.rs, lines 810 to 878) for
one decoded text message: log the event tag, then branch on it,
applying guild-filtered updates.  Asynchronous queue refetches spawned
by some branches touch the state only later and are not part of this
immediate transition. -/
def handle_ws_event (ts : String) (app : App) (ev : WsEvent) : App :=
  let app := app.log ts ("WS Event: " ++ ev.event_type)
  if ev.event_type = "spectrogram_update" then
    if ev.guild_id = app.guild_id then
      match ev.data with
      | some d =>
          match decodeSpectrogram d with
          | some sp =>
              let app := app.log ts ("Received Spectrogram (" ++ toString sp.length ++ " frames)")
              { app with spectrogram := some sp }
          | none => app
      | none => app
    else app
  else if ev.event_type = "state_update" ∨ ev.event_type = "initial_state" then
    if ev.guild_id = app.guild_id then
      match ev.playback.orElse
          (fun _ => (ev.data.bind (fun d => d.lookupField "playback")).bind decodePlayback) with
      | some p =>
          let app :=
            if p.elapsed_ms % 5000 < 500 then
              app.log ts ("State Update: elapsed=" ++ toString p.elapsed_ms ++
                "ms, paused=" ++ toString p.paused)
            else app
          let app :=
            if app.elapsed_ms = 0 ∧ 0 < p.elapsed_ms then
              app.log ts ("Synced playback to " ++ toString p.elapsed_ms ++ "ms")
            else app
          let app := { app with elapsed_ms := p.elapsed_ms,
                                duration_ms := p.duration_ms,
                                paused := p.paused }
          match p.spectrogram with
          | some sp =>
              let app := app.log ts
                ("Received Spectrogram in state (" ++ toString sp.length ++ " frames)")
              { app with spectrogram := some sp }
          | none => app
      | none => app
    else app
  else if ev.event_type = "queue_update" then
    if ev.guild_id = app.guild_id then
      let app := app.log ts "Received Queue Update"
      match ev.data with
      | some d => parse_queue_response ts app d
      | none => app
    else app
  else if ev.event_type = "track_start" ∨ ev.event_type = "track_end" ∨
          ev.event_type = "player_update" then
    if ev.guild_id = app.guild_id then
      app.log ts ("WS Event: " ++ ev.event_type ++ ", refreshing queue")
    else app
  else
    app.log ts ("WS Unhandled Event: " ++ ev.event_type)

/-- Reason the Connected phase of the stream client ends. -/
inductive EndReason where
  | transportError : EndReason
  | transportClose : EndReason
  | forcedReconnect : EndReason
deriving DecidableEq

/-- Outcome of one iteration of the outer loop of spawn_websocket,
seen as external input: credentials or guild still unknown, base URL
unparsable, handshake failure, or a connection whose Connected phase
eventually ends for the given reason. -/
inductive WsIterInput where
  | missingCreds : WsIterInput
  | badUrl : WsIterInput
  | connectFailed : WsIterInput
  | connectedThen : EndReason → WsIterInput
deriving DecidableEq

/-- Observable actions of the stream client loop: the one second wait
while credentials are missing, a connection attempt, the end of a
Connected phase, and a sleep of the given milliseconds before the
next iteration. -/
inductive WsAction where
  | waitCreds : WsAction
  | connectAttempt : WsAction
  | connectedEnd : EndReason → WsAction
  | coolDown : Nat → WsAction
deriving DecidableEq

/-- Actions of one iteration of the spawn_websocket loop (tui.rs,
lines 742 to 917).  Missing credentials sleep one second and retry;
an unparsable URL sleeps five seconds; a handshake failure and a
completed Connected phase both fall through to the five second sleep
at the bottom of the loop body. -/
def ws_iteration : WsIterInput → List WsAction
  | .missingCreds => [.waitCreds]
  | .badUrl => [.coolDown 5000]
  | .connectFailed => [.connectAttempt, .coolDown 5000]
  | .connectedThen r => [.connectAttempt, .connectedEnd r, .coolDown 5000]

/-- Action trace of the stream client over a sequence of iteration
outcomes. -/
def ws_trace (ins : List WsIterInput) : List WsAction :=
  (ins.map ws_iteration).flatten

/-- Query parameter lookup on a parsed callback request: first pair
with the given key, as query_pairs().find does. -/
def findParam (q : List (String × String)) (k : String) : Option String :=
  (q.find? (fun p => p.1 = k)).map Prod.snd

/-- Rust str::trim: drop whitespace from both ends of the string,
modelled over the character list. -/
def rustTrim (s : String) : String :=
  ⟨((s.data.dropWhile Char.isWhitespace).reverse.dropWhile Char.isWhitespace).reverse⟩

/-- Result of handling one login callback request: the HTTP status
written back, the credentials persisted (trimmed token, avatar,
username), and whether the flow as a whole reports success. -/
structure LoginOutcome where
  status : Nat
  saved : Option (String × Option String × Option String)
  flowOk : Bool
deriving DecidableEq

/-- Callback handling of the login function of main.rs (lines 993 to
1141), given the parsed query pairs and assuming persistence succeeds:
an empty or whitespace token answers 400 and bails, a present token is
trimmed, saved and answered 200 with success, and a missing token
answers 400 yet the function still returns Ok. -/
def cli_login_callback (q : List (String × String)) : LoginOutcome :=
  match findParam q "token" with
  | some v =>
      let t := rustTrim v
      if t = "" then { status := 400, saved := none, flowOk := false }
      else { status := 200,
             saved := some (t, findParam q "avatar", findParam q "username"),
             flowOk := true }
  | none => { status := 400, saved := none, flowOk := true }

/-- Callback handling of async_auth_login of tui.rs (lines 527 to
708), given the parsed query pairs and assuming persistence succeeds:
as the CLI flow, except that a missing token answers 400 and the flow
fails with a missing-token message. -/
def tui_login_callback (q : List (String × String)) : LoginOutcome :=
  match findParam q "token" with
  | some v =>
      let t := rustTrim v
      if t = "" then { status := 400, saved := none, flowOk := false }
      else { status := 200,
             saved := some (t, findParam q "avatar", findParam q "username"),
             flowOk := true }
  | none => { status := 400, saved := none, flowOk := false }

/-!  Helper lemmas. -/

theorem log_guild_id (app : App) (ts msg : String) :
    (app.log ts msg).guild_id = app.guild_id := rfl

theorem log_current_track (app : App) (ts msg : String) :
    (app.log ts msg).current_track = app.current_track := rfl

theorem log_queue (app : App) (ts msg : String) :
    (app.log ts msg).queue = app.queue := rfl

theorem log_elapsed_ms (app : App) (ts msg : String) :
    (app.log ts msg).elapsed_ms = app.elapsed_ms := rfl

theorem log_duration_ms (app : App) (ts msg : String) :
    (app.log ts msg).duration_ms = app.duration_ms := rfl

theorem log_paused (app : App) (ts msg : String) :
    (app.log ts msg).paused = app.paused := rfl

theorem log_spectrogram (app : App) (ts msg : String) :
    (app.log ts msg).spectrogram = app.spectrogram := rfl

theorem log_smoothed_bars (app : App) (ts msg : String) :
    (app.log ts msg).smoothed_bars = app.smoothed_bars := rfl

theorem log_visualizer_offset (app : App) (ts msg : String) :
    (app.log ts msg).visualizer_offset = app.visualizer_offset := rfl

theorem log_debug_logs (app : App) (ts msg : String) :
    (app.log ts msg).debug_logs
      = if 100 < (app.debug_logs ++ [logLine ts msg]).length
        then (app.debug_logs ++ [logLine ts msg]).tail
        else app.debug_logs ++ [logLine ts msg] := rfl

theorem advance_elapsed_le (delta : Nat) (app : App) (hdur : 0 < app.duration_ms) :
    advance_elapsed delta app ≤ app.duration_ms := by
  unfold advance_elapsed
  dsimp only
  split
  · exact le_rfl
  · next h => omega

/-- Sample state used to instantiate the theorems below: a freshly
connected session with a known guild and 64 quiet bars. -/
def baseApp : App :=
  { guild_id := some "g1"
    current_track := none
    queue := []
    elapsed_ms := 0
    duration_ms := 0
    paused := true
    spectrogram := none
    visualizer_offset := 200
    debug_logs := []
    smoothed_bars := List.replicate 64 0 }

/-!  C1: elapsed time clamps to the duration. -/

/-- C1: on every render tick with a current track, unpaused playback
and a positive known duration, the elapsed_ms field immediately after
update_realtime is at most duration_ms. -/
theorem update_realtime_clamps_elapsed (delta : Nat) (app : App)
    (htrack : app.current_track.isSome = true) (hpaused : app.paused = false)
    (hdur : 0 < app.duration_ms) :
    (update_realtime delta app).elapsed_ms ≤ app.duration_ms := by
  have hadv := advance_elapsed_le delta app hdur
  unfold update_realtime
  rw [if_pos ⟨htrack, hpaused⟩]
  rcases hs : app.spectrogram with _ | sg
  · exact hadv
  · dsimp only
    split
    · exact hadv
    · exact hadv

def appC1 : App :=
  { baseApp with current_track := some "Song - Artist", paused := false,
                 elapsed_ms := 199500, duration_ms := 200000 }

/-- Witness for C1, the scenario of the claim: duration 200000 ms,
elapsed 199500 ms at the anchor, a 1000 ms wall-clock delta; the
extrapolated elapsed time is 200000 and not 200500. -/
theorem update_realtime_clamps_elapsed_witness :
    appC1.current_track.isSome = true ∧ appC1.paused = false ∧
    0 < appC1.duration_ms ∧
    (update_realtime 1000 appC1).elapsed_ms ≤ appC1.duration_ms ∧
    (update_realtime 1000 appC1).elapsed_ms = 200000 :=
  ⟨rfl, rfl, by decide,
   update_realtime_clamps_elapsed 1000 appC1 rfl rfl (by decide), by decide⟩

/-!  C7: idle ticks decay every band by the factor 0.95. -/

/-- C7: on a tick with no current track or paused playback every band
is multiplied by 0.95, and over any sequence of consecutive idle ticks
each band ends at its initial value times 0.95 to the number of
ticks. -/
theorem idle_decay_geometric (app : App)
    (hidle : app.current_track = none ∨ app.paused = true) :
    (∀ delta, (update_realtime delta app).smoothed_bars
        = app.smoothed_bars.map (fun b => b * (95 / 100))) ∧
    ∀ deltas : List Nat,
      ((deltas.foldl (fun a d => update_realtime d a) app).smoothed_bars
        = app.smoothed_bars.map (fun b => b * (95 / 100) ^ deltas.length)) := by
  have hcond : ∀ a : App, (a.current_track = none ∨ a.paused = true) →
      ¬(a.current_track.isSome = true ∧ a.paused = false) := by
    rintro a (h | h) ⟨h1, h2⟩ <;> simp [h] at h1 h2
  have hstep : ∀ (a : App) (d : Nat), (a.current_track = none ∨ a.paused = true) →
      update_realtime d a
        = { a with smoothed_bars := a.smoothed_bars.map (fun b => b * (95 / 100)) } := by
    intro a d ha
    unfold update_realtime
    rw [if_neg (hcond a ha)]
  refine ⟨fun delta => by rw [hstep app delta hidle], ?_⟩
  intro deltas
  induction deltas generalizing app with
  | nil => simp
  | cons d ds ih =>
    rw [List.foldl_cons, hstep app d hidle]
    rw [ih _ ?_]
    · rw [List.map_map]
      refine List.map_congr_left (fun b _ => ?_)
      simp only [Function.comp_apply, List.length_cons, pow_succ]
      ring
    · rcases hidle with h | h
      · exact Or.inl h
      · exact Or.inr h

/-- Witness for C7: starting from bars at 10 with no current track,
three idle ticks leave every band at 10 times 0.95 cubed. -/
theorem idle_decay_geometric_witness :
    (baseApp.current_track = none ∨ baseApp.paused = true) ∧
    (([5, 6, 7] : List Nat).foldl (fun a d => update_realtime d a) baseApp).smoothed_bars
      = baseApp.smoothed_bars.map (fun b => b * (95 / 100) ^ 3) :=
  ⟨Or.inl rfl, (idle_decay_geometric baseApp (Or.inl rfl)).2 [5, 6, 7]⟩

/-!  C9: the debug log is bounded by 100 entries. -/

/-- C9: any sequence of log calls keeps a log of at most 100 entries
at no more than 100 entries, and a log call on a log holding exactly
100 entries drops the oldest entry, appends the new line and leaves
the length at exactly 100. -/
theorem log_bounded :
    (∀ (entries : List (String × String)) (app : App),
        app.debug_logs.length ≤ 100 →
        (entries.foldl (fun a p => a.log p.1 p.2) app).debug_logs.length ≤ 100) ∧
    ∀ (ts msg : String) (app : App), app.debug_logs.length = 100 →
      (app.log ts msg).debug_logs = app.debug_logs.tail ++ [logLine ts msg] ∧
      (app.log ts msg).debug_logs.length = 100 := by
  have hone : ∀ (app : App) (ts msg : String), app.debug_logs.length ≤ 100 →
      (app.log ts msg).debug_logs.length ≤ 100 := by
    intro app ts msg h
    rw [log_debug_logs]
    split
    · next h2 =>
        simp only [List.length_tail, List.length_append, List.length_singleton] at h2 ⊢
        omega
    · next h2 =>
        simp only [List.length_append, List.length_singleton] at h2 ⊢
        omega
  constructor
  · intro entries
    induction entries with
    | nil => intro app h; simpa using h
    | cons p ps ih =>
        intro app h
        rw [List.foldl_cons]
        exact ih _ (hone app p.1 p.2 h)
  · intro ts msg app h
    rcases hdl : app.debug_logs with _ | ⟨a, l⟩
    · rw [hdl] at h; simp at h
    · rw [hdl] at h
      simp only [List.length_cons] at h
      have h99 : l.length = 99 := by omega
      have hlen : 100 < (app.debug_logs ++ [logLine ts msg]).length := by
        rw [hdl]
        simp only [List.cons_append, List.length_cons, List.length_append,
          List.length_singleton]
        omega
      rw [log_debug_logs, if_pos hlen, hdl]
      constructor
      · simp only [List.cons_append, List.tail_cons]
      · simp only [List.cons_append, List.tail_cons, List.length_append,
          List.length_singleton]
        omega

def appC9 : App := { baseApp with debug_logs := (List.range 100).map toString }

/-- Witness for C9: a log holding entries 0 to 99 receives one more
line; entry 0 is evicted, the new line lands at the end, and the
length stays 100. -/
theorem log_bounded_witness :
    appC9.debug_logs.length = 100 ∧
    (appC9.log "12:00:00" "hello").debug_logs
      = appC9.debug_logs.tail ++ [logLine "12:00:00" "hello"] ∧
    (appC9.log "12:00:00" "hello").debug_logs.length = 100 :=
  ⟨by decide, (log_bounded.2 "12:00:00" "hello" appC9 (by decide)).1,
   (log_bounded.2 "12:00:00" "hello" appC9 (by decide)).2⟩

/-!  C10: the visualizer offset is applied with saturating addition. -/

/-- C10: for any elapsed time and signed offset whose sum would fall
below zero, the adjusted playback time saturates to zero instead of
underflowing, the selected frame index is zero, and a tick with a
nonempty spectrogram present smooths toward frame zero. -/
theorem saturating_offset_total (delta : Nat) (app : App) (sg : List (List Nat))
    (htrack : app.current_track.isSome = true) (hpaused : app.paused = false)
    (hsg : app.spectrogram = some sg) (hne : sg ≠ [])
    (hneg : (advance_elapsed delta app : Int) + app.visualizer_offset < 0) :
    saturatingAddSigned (advance_elapsed delta app) app.visualizer_offset = 0 ∧
    frame_index_of (saturatingAddSigned (advance_elapsed delta app) app.visualizer_offset) = 0 ∧
    (update_realtime delta app).smoothed_bars
      = smooth_update (sg.getD 0 []) app.smoothed_bars := by
  have h0 : saturatingAddSigned (advance_elapsed delta app) app.visualizer_offset = 0 := by
    unfold saturatingAddSigned
    rw [max_eq_right (le_of_lt hneg), min_eq_left (by norm_num)]
    rfl
  refine ⟨h0, by rw [h0]; rfl, ?_⟩
  unfold update_realtime
  rw [if_pos ⟨htrack, hpaused⟩, hsg]
  dsimp only
  rw [h0]
  have hpos : frame_index_of 0 < sg.length := by
    have : 0 < sg.length := List.length_pos.mpr hne
    simpa [frame_index_of] using this
  rw [if_pos hpos]
  simp [frame_index_of]

def appC10 : App :=
  { baseApp with current_track := some "Song - Artist", paused := false,
                 visualizer_offset := -500,
                 spectrogram := some [List.replicate 64 80] }

/-- Witness for C10: elapsed 0 ms with offset -500 ms saturates to an
adjusted time of 0, selects frame 0 of the single-frame spectrogram,
and the tick smooths toward that frame. -/
theorem saturating_offset_total_witness :
    (advance_elapsed 0 appC10 : Int) + appC10.visualizer_offset < 0 ∧
    saturatingAddSigned (advance_elapsed 0 appC10) appC10.visualizer_offset = 0 ∧
    frame_index_of (saturatingAddSigned (advance_elapsed 0 appC10) appC10.visualizer_offset) = 0 ∧
    (update_realtime 0 appC10).smoothed_bars
      = smooth_update ([List.replicate 64 80].getD 0 []) appC10.smoothed_bars :=
  ⟨by decide,
   saturating_offset_total 0 appC10 [List.replicate 64 80] rfl rfl rfl
     (by decide) (by decide)⟩

/-!  C3: frame selection by floor division, out of bounds frames skip
the update. -/

/-- C3 counterexample: in the scenario of the claim the adjusted time
is 1280 ms with offset 0, and the selected frame index is 30, not the
claimed 29, since 42.66 times 30 is 1279.8 which does not exceed
1280. -/
theorem frame_index_scenario_is_30 :
    frame_index_of (saturatingAddSigned 1280 0) = 30 ∧
    frame_index_of (saturatingAddSigned 1280 0) ≠ 29 := by decide

/-- C3 amended: the snapshot frame is selected by the floor of the
offset-adjusted elapsed time divided by the 42.66 ms frame duration
for every elapsed time and signed offset, an out-of-bounds index
leaves smoothed_bars untouched that tick, and the scenario at 1280 ms
with offset 0 selects frame 30 rather than 29. -/
theorem frame_selection_floor_and_oob (a delta : Nat) (app : App) (sg : List (List Nat))
    (htrack : app.current_track.isSome = true) (hpaused : app.paused = false)
    (hsg : app.spectrogram = some sg)
    (hoob : sg.length ≤
      frame_index_of (saturatingAddSigned (advance_elapsed delta app) app.visualizer_offset)) :
    frame_index_of a = Nat.floor ((a : ℚ) / (4266 / 100)) ∧
    frame_index_of 1280 = 30 ∧
    (update_realtime delta app).smoothed_bars = app.smoothed_bars := by
  refine ⟨?_, by decide, ?_⟩
  · rw [div_div_eq_mul_div]
    have hcast : (a : ℚ) * 100 = ((a * 100 : ℕ) : ℚ) := by push_cast; ring
    rw [hcast, show (4266 : ℚ) = ((4266 : ℕ) : ℚ) by norm_cast,
      Nat.floor_div_nat, Nat.floor_natCast]
    rfl
  · unfold update_realtime
    rw [if_pos ⟨htrack, hpaused⟩, hsg]
    dsimp only
    rw [if_neg (Nat.not_lt.mpr hoob)]

def appC3 : App :=
  { baseApp with current_track := some "Song - Artist", paused := false,
                 elapsed_ms := 1000000, visualizer_offset := 0,
                 spectrogram := some [List.replicate 64 80] }

/-- Witness for C3: a session one thousand seconds into playback with
a single-frame spectrogram selects a far out-of-bounds frame, so the
tick leaves the bars untouched; the floor formula and the corrected
frame number 30 are instantiated at 1280 ms. -/
theorem frame_selection_floor_and_oob_witness :
    ([List.replicate 64 80] : List (List Nat)).length ≤
      frame_index_of (saturatingAddSigned (advance_elapsed 0 appC3) appC3.visualizer_offset) ∧
    frame_index_of 1280 = Nat.floor ((1280 : ℚ) / (4266 / 100)) ∧
    frame_index_of 1280 = 30 ∧
    (update_realtime 0 appC3).smoothed_bars = appC3.smoothed_bars :=
  ⟨by decide,
   (frame_selection_floor_and_oob 1280 0 appC3 [List.replicate 64 80]
      rfl rfl rfl (by decide)).1,
   (frame_selection_floor_and_oob 1280 0 appC3 [List.replicate 64 80]
      rfl rfl rfl (by decide)).2.1,
   (frame_selection_floor_and_oob 1280 0 appC3 [List.replicate 64 80]
      rfl rfl rfl (by decide)).2.2⟩

/-!  C6: per-band noise floor, gain, cap and asymmetric smoothing. -/

/-- Per-band processing written from the amended words of claim C6:
noise floor of 60 on the three lowest bands and 30 elsewhere with
negative results clamped to zero, gain of 0.1 on band 0 and 0.6
elsewhere with the result capped at 100, then a step of 40 percent of
the gap when the target is above the current value and 15 percent
when it is below. -/
def smooth_step_spec (i : Nat) (target : Nat) (current : ℚ) : ℚ :=
  let noiseFloor : ℚ := if i < 3 then 60 else 30
  let afterFloor : ℚ := max ((target : ℚ) - noiseFloor) 0
  let g : ℚ := if i = 0 then 1 / 10 else 6 / 10
  let processed : ℚ := min (afterFloor * g) 100
  if current < processed then current + (4 / 10) * (processed - current)
  else current - (15 / 100) * (current - processed)

/-- Per-band processing exactly as claim C6 words it, with no cap on
the scaled target. -/
def smooth_step_claimed (i : Nat) (target : Nat) (current : ℚ) : ℚ :=
  let noiseFloor : ℚ := if i < 3 then 60 else 30
  let afterFloor : ℚ := max ((target : ℚ) - noiseFloor) 0
  let g : ℚ := if i = 0 then 1 / 10 else 6 / 10
  let processed : ℚ := afterFloor * g
  if current < processed then current + (4 / 10) * (processed - current)
  else current - (15 / 100) * (current - processed)

/-- C6 counterexample: the claim omits the cap of the scaled target at
100 in the source.  On band 3 with raw value 255 and current value 0
the source yields 40 (target capped to 100, rising step 40 percent)
while the formula of the claim yields 54 (uncapped target 135). -/
theorem smooth_step_cap_counterexample :
    smooth_step 3 255 0 = 40 ∧ smooth_step_claimed 3 255 0 = 54 ∧
    smooth_step 3 255 0 ≠ smooth_step_claimed 3 255 0 := by
  refine ⟨?_, ?_, ?_⟩ <;>
    norm_num [smooth_step, smooth_step_claimed, max_def, min_def]

theorem getD_mapIdx {α : Type} (f : Nat → α → α) (l : List α) (i : Nat)
    (h : i < l.length) (d : α) :
    (l.mapIdx f).getD i d = f i (l.getD i d) := by
  induction l generalizing f i with
  | nil => simp at h
  | cons a l ih =>
    rw [List.mapIdx_cons]
    cases i with
    | zero => simp
    | succ n =>
        simp only [List.getD_cons_succ]
        exact ih (fun k => f (k + 1)) n (by simpa using h)

/-- C6 amended: the per-band step of the source subtracts the
per-band noise floor clamping at zero, applies the per-band gain with
the result capped at 100, and moves 40 percent of the gap toward the
processed target when rising and 15 percent when falling; on a tick
with an in-bounds frame each updated band equals that step applied to
its frame byte and previous value. -/
theorem smooth_band_processing (delta : Nat) (app : App) (sg : List (List Nat)) (i : Nat)
    (htrack : app.current_track.isSome = true) (hpaused : app.paused = false)
    (hsg : app.spectrogram = some sg)
    (hfi : frame_index_of (saturatingAddSigned (advance_elapsed delta app)
      app.visualizer_offset) < sg.length)
    (hbars : app.smoothed_bars.length = 64) (hi : i < 64)
    (hif : i < (sg.getD (frame_index_of (saturatingAddSigned (advance_elapsed delta app)
      app.visualizer_offset)) []).length) :
    (∀ j t c, smooth_step j t c = smooth_step_spec j t c) ∧
    (update_realtime delta app).smoothed_bars.getD i 0
      = smooth_step_spec i
          ((sg.getD (frame_index_of (saturatingAddSigned (advance_elapsed delta app)
              app.visualizer_offset)) []).getD i 0)
          (app.smoothed_bars.getD i 0) := by
  have hfun : ∀ j t c, smooth_step j t c = smooth_step_spec j t c := by
    intro j t c
    simp only [smooth_step, smooth_step_spec, gt_iff_lt]
    split
    · ring_nf
    · ring_nf
  refine ⟨hfun, ?_⟩
  unfold update_realtime
  rw [if_pos ⟨htrack, hpaused⟩, hsg]
  dsimp only
  rw [if_pos hfi]
  dsimp only
  rw [smooth_update, getD_mapIdx _ _ i (by omega) 0,
    if_pos (lt_min hi hif), hfun]

def appC6 : App :=
  { baseApp with current_track := some "Song - Artist", paused := false,
                 visualizer_offset := 0,
                 spectrogram := some [List.replicate 64 100] }

/-- Witness for C6: a tick on a fresh session with a one-frame
spectrogram of bytes at 100 updates band 5 to the processed target
value given by the amended per-band formula. -/
theorem smooth_band_processing_witness :
    appC6.smoothed_bars.length = 64 ∧
    frame_index_of (saturatingAddSigned (advance_elapsed 0 appC6)
      appC6.visualizer_offset) < ([List.replicate 64 100] : List (List Nat)).length ∧
    (update_realtime 0 appC6).smoothed_bars.getD 5 0
      = smooth_step_spec 5
          ((([List.replicate 64 100] : List (List Nat)).getD
              (frame_index_of (saturatingAddSigned (advance_elapsed 0 appC6)
                appC6.visualizer_offset)) []).getD 5 0)
          (appC6.smoothed_bars.getD 5 0) :=
  ⟨by decide, by decide,
   (smooth_band_processing 0 appC6 [List.replicate 64 100] 5 rfl rfl rfl
      (by decide) (by decide) (by decide) (by decide)).2⟩

/-!  C8: applying the same queue payload twice is idempotent. -/

/-- C8: applying one queue_update payload to the session state twice
in succession yields the same current track and the same queue
contents as applying it once. -/
theorem parse_queue_response_idempotent (ts ts2 : String) (app : App) (j : Json) :
    (parse_queue_response ts2 (parse_queue_response ts app j) j).current_track
      = (parse_queue_response ts app j).current_track ∧
    (parse_queue_response ts2 (parse_queue_response ts app j) j).queue
      = (parse_queue_response ts app j).queue :=
  ⟨rfl, rfl⟩

/-!  C5: login callback outcomes. -/

/-- C5 counterexample: a callback request with no token parameter at
all makes the CLI login flow answer 400 yet return Ok, so the flow as
a whole does not fail as the claim states. -/
theorem cli_login_missing_token_returns_ok :
    cli_login_callback [] = { status := 400, saved := none, flowOk := true } ∧
    (cli_login_callback []).flowOk ≠ false := by
  refine ⟨rfl, by decide⟩

/-- C5 amended: a present non-blank token is trimmed, persisted and
answered 200 with overall success in both login flows; a present but
blank token is answered 400 and fails both flows; a missing token is
answered 400 and fails the TUI flow, but the CLI flow still returns
success while persisting nothing. -/
theorem login_callback_outcomes (q : List (String × String)) (v : String) :
    (findParam q "token" = none →
        cli_login_callback q = { status := 400, saved := none, flowOk := true } ∧
        tui_login_callback q = { status := 400, saved := none, flowOk := false }) ∧
    (findParam q "token" = some v → rustTrim v = "" →
        cli_login_callback q = { status := 400, saved := none, flowOk := false } ∧
        tui_login_callback q = { status := 400, saved := none, flowOk := false }) ∧
    (findParam q "token" = some v → rustTrim v ≠ "" →
        cli_login_callback q
          = { status := 200,
              saved := some (rustTrim v, findParam q "avatar", findParam q "username"),
              flowOk := true } ∧
        tui_login_callback q
          = { status := 200,
              saved := some (rustTrim v, findParam q "avatar", findParam q "username"),
              flowOk := true }) := by
  refine ⟨fun h => ?_, fun h hb => ?_, fun h hnb => ?_⟩
  · rw [cli_login_callback, tui_login_callback, h]
    exact ⟨rfl, rfl⟩
  · rw [cli_login_callback, tui_login_callback, h]
    dsimp only
    rw [if_pos hb]
    exact ⟨rfl, rfl⟩
  · rw [cli_login_callback, tui_login_callback, h]
    dsimp only
    rw [if_neg hnb]
    exact ⟨rfl, rfl⟩

/-- Witness for C5: a callback carrying a padded token saves the
trimmed token with success in both flows, and one carrying a blank
token fails both flows with a 400 answer. -/
theorem login_callback_outcomes_witness :
    (findParam [("token", " abc "), ("username", "u")] "token" = some " abc " ∧
      rustTrim " abc " ≠ "" ∧
      cli_login_callback [("token", " abc "), ("username", "u")]
        = { status := 200, saved := some ("abc", none, some "u"), flowOk := true }) ∧
    (findParam [("token", "  ")] "token" = some "  " ∧ rustTrim "  " = "" ∧
      tui_login_callback [("token", "  ")]
        = { status := 400, saved := none, flowOk := false }) :=
  ⟨⟨rfl, by decide,
    by
      have h := (login_callback_outcomes [("token", " abc "), ("username", "u")]
        " abc ").2.2 rfl (by decide)
      rw [h.1]
      decide⟩,
   ⟨rfl, by decide,
    ((login_callback_outcomes [("token", "  ")] "  ").2.1 rfl (by decide)).2⟩⟩

/-!  C2: events for a non-matching guild only touch the debug log. -/

def evC2 : WsEvent :=
  { event_type := "queue_update", guild_id := some "g2",
    data := none, playback := none }

/-- C2 counterexample: a decoded queue_update event for guild g2
arriving at a session on guild g1 changes the session state, because
the dispatcher appends a diagnostic line to the bounded log before
the guild filter runs. -/
theorem mismatched_guild_changes_state :
    handle_ws_event "12:00:00" baseApp evC2 ≠ baseApp := by
  intro h
  have hlogs := congrArg App.debug_logs h
  rw [show (handle_ws_event "12:00:00" baseApp evC2).debug_logs
      = [logLine "12:00:00" "WS Event: queue_update"] from rfl] at hlogs
  exact List.cons_ne_nil _ _ hlogs

/-- C2 amended: processing a decoded stream event whose guild differs
from the session guild leaves every field of the session state other
than the bounded debug log unchanged; only diagnostic log lines are
appended. -/
theorem mismatched_guild_only_log_changes (ts : String) (app : App) (ev : WsEvent)
    (hg : ev.guild_id ≠ app.guild_id) :
    (handle_ws_event ts app ev).guild_id = app.guild_id ∧
    (handle_ws_event ts app ev).current_track = app.current_track ∧
    (handle_ws_event ts app ev).queue = app.queue ∧
    (handle_ws_event ts app ev).elapsed_ms = app.elapsed_ms ∧
    (handle_ws_event ts app ev).duration_ms = app.duration_ms ∧
    (handle_ws_event ts app ev).paused = app.paused ∧
    (handle_ws_event ts app ev).spectrogram = app.spectrogram ∧
    (handle_ws_event ts app ev).smoothed_bars = app.smoothed_bars ∧
    (handle_ws_event ts app ev).visualizer_offset = app.visualizer_offset := by
  have hg1 : ¬ ev.guild_id = (app.log ts ("WS Event: " ++ ev.event_type)).guild_id := by
    rw [log_guild_id]; exact hg
  unfold handle_ws_event
  split_ifs <;>
    first
      | exact ⟨rfl, rfl, rfl, rfl, rfl, rfl, rfl, rfl, rfl⟩
      | (rw [if_neg hg1]; exact ⟨rfl, rfl, rfl, rfl, rfl, rfl, rfl, rfl, rfl⟩)

/-- Witness for C2 amended: the mismatched queue_update event of the
counterexample leaves every field except the log unchanged. -/
theorem mismatched_guild_only_log_changes_witness :
    evC2.guild_id ≠ baseApp.guild_id ∧
    (handle_ws_event "12:00:00" baseApp evC2).queue = baseApp.queue ∧
    (handle_ws_event "12:00:00" baseApp evC2).spectrogram = baseApp.spectrogram :=
  ⟨by decide,
   (mismatched_guild_only_log_changes "12:00:00" baseApp evC2 (by decide)).2.2.1,
   (mismatched_guild_only_log_changes "12:00:00" baseApp evC2 (by decide)).2.2.2.2.2.2.1⟩

/-!  C4: a five second cool-down separates the end of a Connected
phase from the next connection attempt. -/

theorem ws_trace_cooldown_next (ins : List WsIterInput) (i : Nat) (r : EndReason)
    (h : (ws_trace ins).get? i = some (.connectedEnd r)) :
    (ws_trace ins).get? (i + 1) = some (.coolDown 5000) := by
  induction ins generalizing i with
  | nil => simp [ws_trace] at h
  | cons x rest ih =>
    have hx : ws_trace (x :: rest) = ws_iteration x ++ ws_trace rest := by
      simp [ws_trace]
    rw [hx] at h ⊢
    cases x with
    | missingCreds =>
        cases i with
        | zero => simp [ws_iteration] at h
        | succ n =>
            simp only [ws_iteration, List.cons_append, List.nil_append,
              List.get?_cons_succ] at h ⊢
            exact ih n h
    | badUrl =>
        cases i with
        | zero => simp [ws_iteration] at h
        | succ n =>
            simp only [ws_iteration, List.cons_append, List.nil_append,
              List.get?_cons_succ] at h ⊢
            exact ih n h
    | connectFailed =>
        cases i with
        | zero => simp [ws_iteration] at h
        | succ n =>
          cases n with
          | zero => simp [ws_iteration] at h
          | succ m =>
              simp only [ws_iteration, List.cons_append, List.nil_append,
                List.get?_cons_succ] at h ⊢
              exact ih m h
    | connectedThen r2 =>
        cases i with
        | zero => simp [ws_iteration] at h
        | succ n =>
          cases n with
          | zero =>
              simp only [ws_iteration, List.cons_append, List.nil_append,
                List.get?_cons_succ, List.get?_cons_zero]
          | succ m =>
            cases m with
            | zero => simp [ws_iteration] at h
            | succ k =>
                simp only [ws_iteration, List.cons_append, List.nil_append,
                  List.get?_cons_succ] at h ⊢
                exact ih k h

/-- C4: in every trace of the stream client loop, once a Connected
phase ends (transport error, transport close or forced reconnect),
any later connection attempt is separated from it by the fixed five
second cool-down sleep. -/
theorem reconnect_cooldown_after_connected (ins : List WsIterInput) (i j : Nat)
    (r : EndReason) (hij : i < j)
    (hi : (ws_trace ins).get? i = some (.connectedEnd r))
    (hj : (ws_trace ins).get? j = some .connectAttempt) :
    ∃ k, i < k ∧ k < j ∧ (ws_trace ins).get? k = some (.coolDown 5000) := by
  refine ⟨i + 1, Nat.lt_succ_self i, ?_, ws_trace_cooldown_next ins i r hi⟩
  rcases Nat.lt_or_ge (i + 1) j with h | h
  · exact h
  · exfalso
    have hji : j = i + 1 := by omega
    rw [hji, ws_trace_cooldown_next ins i r hi] at hj
    simp at hj

/-- Witness for C4: a connection whose Connected phase ends with a
transport close, followed by a failed handshake; the cool-down sleep
sits strictly between the phase end at index 1 and the next attempt
at index 3. -/
theorem reconnect_cooldown_after_connected_witness :
    (1 : Nat) < 3 ∧
    (ws_trace [WsIterInput.connectedThen EndReason.transportClose,
        WsIterInput.connectFailed]).get? 1
      = some (WsAction.connectedEnd EndReason.transportClose) ∧
    (ws_trace [WsIterInput.connectedThen EndReason.transportClose,
        WsIterInput.connectFailed]).get? 3 = some WsAction.connectAttempt ∧
    ∃ k, 1 < k ∧ k < 3 ∧
      (ws_trace [WsIterInput.connectedThen EndReason.transportClose,
          WsIterInput.connectFailed]).get? k = some (WsAction.coolDown 5000) :=
  ⟨by decide, rfl, rfl,
   reconnect_cooldown_after_connected
     [WsIterInput.connectedThen EndReason.transportClose, WsIterInput.connectFailed]
     1 3 EndReason.transportClose (by decide) rfl rfl⟩

end Jorik
